import Mathlib

/-!
Verification of the entity/component game engine and its world editor.

Shallow embedding of the JavaScript sources: the editor placement and
selection engine (`src/states/EditorState.js`), the asset manager
(`AssetManager` with a resolved-asset cache and a pending-load map),
the state manager (`src/core/StateManager.js`), the player input and
portal components, and entity destruction (`src/entities/Entity.js`).
Machine floats are modelled as rationals; JavaScript `Math.round`
agrees with Mathlib `round` on rationals (round half toward positive
infinity).
-/

namespace GameGraph

/-- Character-list version of JavaScript `String.prototype.startsWith`:
`charsStartWith l p` is true when `p` is an initial segment of `l`. -/
def charsStartWith : List Char → List Char → Bool
  | _, [] => true
  | [], _ :: _ => false
  | a :: as, b :: bs => a == b && charsStartWith as bs

/-- Character-list version of JavaScript `String.prototype.includes`:
true when `p` occurs contiguously inside `l`. -/
def charsContain : List Char → List Char → Bool
  | [], p => p.isEmpty
  | a :: as, p => charsStartWith (a :: as) p || charsContain as p

/-- JavaScript `s.includes(pat)` on strings. -/
def strContains (s pat : String) : Bool :=
  charsContain s.data pat.data

namespace Editor

/-- Grid size of the editor; `this.gridSize = 1` in the `EditorState`
constructor. -/
def gridSize : ℚ := 1

/-- Object type tags returned by `EditorState.getObjectType`. -/
inductive ObjType where
  | floor
  | wall
  | prop
deriving DecidableEq

/-- A three.js vector with the three coordinates used by the editor
(`position`, `rotation`, `scale` of a placed object). -/
structure Vec3 where
  x : ℚ
  y : ℚ
  z : ℚ
deriving DecidableEq

/-- `EditorState.getObjectType(modelPath)`: paths containing "floor" are
floors, paths containing "wall" are walls, everything else is a prop. -/
def getObjectType (modelPath : String) : ObjType :=
  if strContains modelPath "floor" then .floor
  else if strContains modelPath "wall" then .wall
  else .prop

/-- The path normalization at the top of `EditorState.placeObject`:
old-save prefixes `public/worlds/arcade/` and `public/characters/` are
rewritten to the `assets/` locations.  JavaScript `replace` with the
guard `startsWith` is a prefix replacement. -/
def correctPath (p : String) : String :=
  if charsStartWith p.data "public/worlds/arcade/".data then
    ⟨"assets/arcade/".data ++ p.data.drop "public/worlds/arcade/".data.length⟩
  else if charsStartWith p.data "public/characters/".data then
    ⟨"assets/characters/".data ++ p.data.drop "public/characters/".data.length⟩
  else p

/-- A placed world object: the fields of the three.js object instance
that `EditorState` reads back (its transform) together with the
`userData` written by `placeObject` (`modelPath`, `isEditableAsset`,
`interactionId`, `interactionData`, `gridKey`).  Object identity in
JavaScript is modelled by the unique `id`. -/
structure PlacedObject where
  id : ℕ
  modelPath : String
  position : Vec3
  rotation : Vec3
  scale : Vec3
  interactionId : Option String
  interactionData : Option String
  isEditableAsset : Bool
  gridKey : Option (ℤ × ℤ)
deriving DecidableEq

/-- One entry of a grid-cell occupancy list, as pushed by
`EditorState.addObjectToGrid`: the object type and the placed object
(identity modelled by its id). -/
structure GridEntry where
  type : ObjType
  objId : ℕ
deriving DecidableEq

/-- The occupancy map `this.occupiedGridCells`: cell key (the pair of
grid coordinates that the source stringifies as "x,z") to the list of
entries.  A missing key reads as `[]` (`.get(cellKey) || []` in the
source), so deleting a key and storing `[]` are observationally equal
and the map is modelled as a total function with default `[]`. -/
def Grid : Type := ℤ × ℤ → List GridEntry

/-- The slice of `EditorState` that the placement, selection and
persistence methods touch: the editable-object list, the occupancy
grid, the multi-selection list and primary selection (holding object
identities), and a counter supplying fresh object identities. -/
structure EditorState where
  editableObjects : List PlacedObject
  occupiedGridCells : Grid
  selectedObjects : List PlacedObject
  selectedObject : Option PlacedObject
  nextId : ℕ

/-- The freshly constructed editor: empty object list, empty grid,
empty selection. -/
def emptyEditor : EditorState :=
  { editableObjects := []
    occupiedGridCells := fun _ => []
    selectedObjects := []
    selectedObject := none
    nextId := 0 }

/-- `EditorState.isCellOccupied(cellKey, newObjectType)`: a floor
placement conflicts with an existing floor entry, any other placement
conflicts with any existing non-floor entry. -/
def isCellOccupied (g : Grid) (cell : ℤ × ℤ) (newObjectType : ObjType) : Bool :=
  let cellObjects := g cell
  if newObjectType = .floor then
    cellObjects.any (fun o => o.type = .floor)
  else
    cellObjects.any (fun o => o.type ≠ .floor)

/-- `EditorState.addObjectToGrid(object)`: recompute the cell from the
object's position, record it in `userData.gridKey`, and push a
`{type, object}` entry onto the cell's list.  Returns the updated grid
together with the object carrying its new `gridKey`. -/
def addObjectToGrid (g : Grid) (obj : PlacedObject) : Grid × PlacedObject :=
  let gridX : ℤ := round (obj.position.x / gridSize)
  let gridZ : ℤ := round (obj.position.z / gridSize)
  let cell := (gridX, gridZ)
  let obj' := { obj with gridKey := some cell }
  let entry : GridEntry := { type := getObjectType obj.modelPath, objId := obj.id }
  (fun c => if c = cell then g cell ++ [entry] else g c, obj')

/-- `EditorState.removeObjectFromGrid(object)`: no-op without a
`gridKey`; otherwise filter the object's identity out of its cell. -/
def removeObjectFromGrid (g : Grid) (obj : PlacedObject) : Grid :=
  match obj.gridKey with
  | none => g
  | some cell => fun c =>
      if c = cell then (g cell).filter (fun e => e.objId ≠ obj.id) else g c

/-- The asset data that `placeObject` derives from a loaded model and
that is deterministic per asset path: the vertical offset
`-(bbox.center.y - bbox.size.y / 2)` applied to `position.y` (the
bounding box is computed on the fresh clone before rotation and scale
are assigned), and the clone's default `rotation.x` / `rotation.z`
(only `rotation.y` is overwritten by `placeObject`). -/
structure AssetTemplate where
  yOff : ℚ
  rotX : ℚ
  rotZ : ℚ
deriving DecidableEq

/-- The asset environment: what `assetManager.getAsset` resolves for a
path.  `none` models a load failure, which `placeObject` catches (log
and toast, no state change). -/
def AssetEnv : Type := String → Option AssetTemplate

/-- The arguments of one `placeObject` call. -/
structure PlaceReq where
  modelPath : String
  x : ℚ
  z : ℚ
  rotationY : ℚ
  scale : Vec3
  interactionId : Option String
  interactionData : Option String
deriving DecidableEq

/-- The part of `EditorState.placeObject` after its occupancy check:
`await getAsset` (a load failure is caught — log and toast — with no
state change), then position the cloned instance at the snapped cell
with the bounding-box vertical offset, assign `rotation.y` and the
scale, record `userData`, append to `editableObjects` and add to the
grid.  In the event loop this commit runs in a later microtask, after
the asset promise resolves, and performs no further occupancy
check. -/
def commitPlace (env : AssetEnv) (s : EditorState) (req : PlaceReq) : EditorState :=
  let corrected := correctPath req.modelPath
  let gridX : ℤ := round (req.x / gridSize)
  let gridZ : ℤ := round (req.z / gridSize)
  match env corrected with
  | none => s
  | some tpl =>
      let obj : PlacedObject :=
        { id := s.nextId
          modelPath := corrected
          position := ⟨(gridX : ℚ) * gridSize, tpl.yOff, (gridZ : ℚ) * gridSize⟩
          rotation := ⟨tpl.rotX, req.rotationY, tpl.rotZ⟩
          scale := req.scale
          interactionId := req.interactionId
          interactionData := req.interactionData
          isEditableAsset := true
          gridKey := none }
      let ga := addObjectToGrid s.occupiedGridCells obj
      { s with
          editableObjects := s.editableObjects ++ [ga.2]
          occupiedGridCells := ga.1
          nextId := s.nextId + 1 }

/-- `EditorState.placeObject(modelPath, x, z, rotationY, scale,
interactionId, interactionData)`: normalize the path, snap to the
grid cell, reject when `isCellOccupied` — the path correction, cell
computation and this check run synchronously, before the method's
first `await` — otherwise load the asset and commit
(`commitPlace`). -/
def placeObject (env : AssetEnv) (s : EditorState) (req : PlaceReq) : EditorState :=
  let corrected := correctPath req.modelPath
  let gridX : ℤ := round (req.x / gridSize)
  let gridZ : ℤ := round (req.z / gridSize)
  let cell := (gridX, gridZ)
  let newObjectType := getObjectType corrected
  if isCellOccupied s.occupiedGridCells cell newObjectType then s
  else commitPlace env s req

/-- Fold a list of placement requests through `placeObject` (live
stamping of several objects). -/
def runPlacements (env : AssetEnv) (s : EditorState) (reqs : List PlaceReq) : EditorState :=
  reqs.foldl (placeObject env) s

/-- One record of the persisted world format, as produced by
`EditorState.serializeWorld`.  The source record also carries the
constant field `type: "staticObject"` and the field `model`, both
functions of `path` alone (basename with the `.glb` suffix dropped);
they are omitted here because they are derived from `path` and never
read back by `loadWorldData`. -/
structure WorldRecord where
  path : String
  position : Vec3
  rotation : Vec3
  scale : Vec3
  interactionId : Option String
  interactionData : Option String
deriving DecidableEq

/-- The record `serializeWorld` emits for one placed object. -/
def toRecord (o : PlacedObject) : WorldRecord :=
  { path := o.modelPath
    position := o.position
    rotation := o.rotation
    scale := o.scale
    interactionId := o.interactionId
    interactionData := o.interactionData }

/-- `EditorState.serializeWorld()`: one record per editable object
with `userData.isEditableAsset`, in list order. -/
def serializeWorld (s : EditorState) : List WorldRecord :=
  (s.editableObjects.filter (fun o => o.isEditableAsset)).map toRecord

/-- `EditorState.deselectAllObjects()`: remove highlights (a material
swap, invisible to this model), empty the selection list and null the
primary selection. -/
def deselectAllObjects (s : EditorState) : EditorState :=
  { s with selectedObjects := [], selectedObject := none }

/-- `EditorState.clearScene()`: deselect everything, dispose every
editable object from the scene, reset the object list, clear the
occupancy map (and drop preview meshes, invisible to this model). -/
def clearScene (s : EditorState) : EditorState :=
  let s1 := deselectAllObjects s
  { s1 with
      editableObjects := []
      occupiedGridCells := fun _ => [] }

/-- The `placeObject` call that `loadWorldData` issues for one saved
record: the record's path, position x/z, rotation y, scale and
interaction metadata. -/
def reqOfRec (r : WorldRecord) : PlaceReq :=
  { modelPath := r.path
    x := r.position.x
    z := r.position.z
    rotationY := r.rotation.y
    scale := r.scale
    interactionId := r.interactionId
    interactionData := r.interactionData }

/-- The grid-cell cell a saved record maps back to when replayed. -/
def recCell (r : WorldRecord) : ℤ × ℤ :=
  (round (r.position.x / gridSize), round (r.position.z / gridSize))

/-- `EditorState.loadWorldData(worldData, worldName)`: clear the scene
(the world-name DOM field is outside this model), then issue one
`placeObject` per record under `Promise.all`.  Each `placeObject` runs
synchronously up to its first `await`: the path correction, the cell
computation and the occupancy check all execute during the `map`
callback, against the just-cleared grid, before any placement has
committed; the commits run in later microtasks, as the asset promises
resolve, with no further occupancy check.  The model therefore filters
the records by the occupancy check against the cleared grid and then
folds the unchecked commits (`commitPlace`).  The fold uses record
order; since the commit phase performs no checks, any
promise-resolution order yields the same multiset of placed
records. -/
def loadWorldData (env : AssetEnv) (s : EditorState) (records : List WorldRecord) :
    EditorState :=
  let s0 := clearScene s
  let passing := records.filter (fun r =>
    !(isCellOccupied s0.occupiedGridCells (recCell r) (getObjectType (correctPath r.path))))
  passing.foldl (fun st r => commitPlace env st (reqOfRec r)) s0

/-- `EditorState.selectObject(object, addToSelection)`: without
`addToSelection` clear the selection first; push the object onto the
selection list unless already a member; make it the primary
selection. -/
def selectObject (s : EditorState) (obj : PlacedObject) (addToSelection : Bool) :
    EditorState :=
  let s1 := if addToSelection then s else deselectAllObjects s
  let s2 :=
    if s1.selectedObjects.contains obj then s1
    else { s1 with selectedObjects := s1.selectedObjects ++ [obj] }
  { s2 with selectedObject := some obj }

/-- `EditorState.deselectObject(object)`: with an argument, filter it
out of the selection list; without one, empty the list; the primary
selection becomes the last remaining element or null. -/
def deselectObject (s : EditorState) (obj : Option PlacedObject) : EditorState :=
  let s1 :=
    match obj with
    | some o => { s with selectedObjects := s.selectedObjects.filter (fun x => x ≠ o) }
    | none => { s with selectedObjects := [] }
  { s1 with selectedObject := s1.selectedObjects.getLast? }

/-- `EditorState.deleteSelectedObject()`: for every selected object,
remove it from the grid, dispose it from the scene and splice it out
of `editableObjects`; then deselect everything. -/
def deleteSelectedObject (s : EditorState) : EditorState :=
  let s1 := s.selectedObjects.foldl
    (fun st obj =>
      { st with
          occupiedGridCells := removeObjectFromGrid st.occupiedGridCells obj
          editableObjects := st.editableObjects.erase obj })
    s
  deselectAllObjects s1

/-- The selection coupling invariant of claim C10: the primary
selection is null exactly when the multi-selection list is empty, and
otherwise is a member of it. -/
def SelInv (s : EditorState) : Prop :=
  (s.selectedObject = none ↔ s.selectedObjects = []) ∧
    ∀ o, s.selectedObject = some o → o ∈ s.selectedObjects

/-- The grid cell a `placeObject` call targets: the request position
snapped by `Math.round(x / gridSize)`. -/
def reqCell (req : PlaceReq) : ℤ × ℤ :=
  (round (req.x / gridSize), round (req.z / gridSize))

/-- The grid cell of a placed object, recomputed from its position as
`addObjectToGrid` does. -/
def objCell (o : PlacedObject) : ℤ × ℤ :=
  (round (o.position.x / gridSize), round (o.position.z / gridSize))

/-- The occupancy entry `addObjectToGrid` pushes for an object. -/
def entryOf (o : PlacedObject) : GridEntry :=
  { type := getObjectType o.modelPath, objId := o.id }

/-- The occupancy entries a cell should hold for a given object list:
one entry per object whose position snaps to the cell. -/
def entriesFor (objs : List PlacedObject) (cell : ℤ × ℤ) : List GridEntry :=
  (objs.filter (fun o => objCell o = cell)).map entryOf

/-- Grid coupling invariant: the occupancy map is exactly the entries
derived from the editable-object list. -/
def GInv (s : EditorState) : Prop :=
  ∀ cell, s.occupiedGridCells cell = entriesFor s.editableObjects cell

/-- Whether an occupancy entry is a floor entry. -/
def floorP (e : GridEntry) : Bool :=
  decide (e.type = ObjType.floor)

/-- Whether an occupancy entry is a non-floor entry. -/
def nonFloorP (e : GridEntry) : Bool :=
  decide (e.type ≠ ObjType.floor)

/-- The occupancy invariant of the editor grid: every cell holds at
most one floor entry and at most one non-floor entry. -/
def CellOK (s : EditorState) : Prop :=
  ∀ cell, (s.occupiedGridCells cell).countP floorP ≤ 1 ∧
    (s.occupiedGridCells cell).countP nonFloorP ≤ 1

/-- Shape of every object `placeObject` produces: corrected path
(fixed point of `correctPath`), an asset template for the path, a
grid-snapped position carrying the template's vertical offset, the
template's default x/z rotation, and the editable flag. -/
def WFObj (env : AssetEnv) (o : PlacedObject) : Prop :=
  ∃ (i j : ℤ) (tpl : AssetTemplate),
    env o.modelPath = some tpl ∧
    correctPath o.modelPath = o.modelPath ∧
    o.position = ⟨(i : ℚ), tpl.yOff, (j : ℚ)⟩ ∧
    o.rotation.x = tpl.rotX ∧ o.rotation.z = tpl.rotZ ∧
    o.isEditableAsset = true

/-- Shape of every record `serializeWorld` emits for a well-formed
object. -/
def WFRec (env : AssetEnv) (r : WorldRecord) : Prop :=
  ∃ (i j : ℤ) (tpl : AssetTemplate),
    env r.path = some tpl ∧
    correctPath r.path = r.path ∧
    r.position = ⟨(i : ℚ), tpl.yOff, (j : ℚ)⟩ ∧
    r.rotation.x = tpl.rotX ∧ r.rotation.z = tpl.rotZ

/-- The combined editor-state invariant established by placement:
grid coupling, per-cell occupancy bounds, and well-formedness of every
placed object. -/
def StInv (env : AssetEnv) (s : EditorState) : Prop :=
  GInv s ∧ CellOK s ∧ ∀ o ∈ s.editableObjects, WFObj env o

/-- The object a successful `placeObject` call appends, spelled out:
identity from the fresh-id counter, corrected path, snapped position
with the bounding-box vertical offset, template x/z rotation with the
requested y rotation, requested scale and interaction metadata, and
the grid key recorded by `addObjectToGrid`. -/
def newObj (st : EditorState) (req : PlaceReq) (tpl : AssetTemplate) : PlacedObject :=
  { id := st.nextId
    modelPath := correctPath req.modelPath
    position := ⟨((round (req.x / gridSize) : ℤ) : ℚ) * gridSize, tpl.yOff,
      ((round (req.z / gridSize) : ℤ) : ℚ) * gridSize⟩
    rotation := ⟨tpl.rotX, req.rotationY, tpl.rotZ⟩
    scale := req.scale
    interactionId := req.interactionId
    interactionData := req.interactionData
    isEditableAsset := true
    gridKey := some (reqCell req) }

/-- A concrete asset environment for witnesses: every path resolves to
the template with zero offsets. -/
def envAll : AssetEnv := fun _ => some ⟨0, 0, 0⟩

/-- A concrete editor state holding one wall entry at cell (0,0). -/
def sOneWall : EditorState :=
  { editableObjects := []
    occupiedGridCells := fun c => if c = ((0 : ℤ), (0 : ℤ)) then
        [{ type := ObjType.wall, objId := 0 }] else []
    selectedObjects := []
    selectedObject := none
    nextId := 1 }

/-- A concrete editor state holding one floor entry at cell (0,0). -/
def sOneFloor : EditorState :=
  { editableObjects := []
    occupiedGridCells := fun c => if c = ((0 : ℤ), (0 : ℤ)) then
        [{ type := ObjType.floor, objId := 0 }] else []
    selectedObjects := []
    selectedObject := none
    nextId := 1 }

/-- A concrete prop-placement request at the origin. -/
def reqRock00 : PlaceReq :=
  { modelPath := "rock", x := 0, z := 0, rotationY := 0
    scale := ⟨1, 1, 1⟩, interactionId := none, interactionData := none }

/-- A concrete floor-placement request at the origin. -/
def reqFloor00 : PlaceReq :=
  { modelPath := "floorTile", x := 0, z := 0, rotationY := 0
    scale := ⟨1, 1, 1⟩, interactionId := none, interactionData := none }

/-- A concrete wall-placement request at the origin. -/
def reqWall00 : PlaceReq :=
  { modelPath := "wall", x := 0, z := 0, rotationY := 0
    scale := ⟨1, 1, 1⟩, interactionId := none, interactionData := none }

/-- A concrete wall-placement request at cell (1,0). -/
def reqWall10 : PlaceReq :=
  { modelPath := "wall", x := 1, z := 0, rotationY := 0
    scale := ⟨1, 1, 1⟩, interactionId := none, interactionData := none }

/-- A concrete saved-world record: a wall at the origin. -/
def recWall00 : WorldRecord :=
  { path := "wall", position := ⟨0, 0, 0⟩, rotation := ⟨0, 0, 0⟩
    scale := ⟨1, 1, 1⟩, interactionId := none, interactionData := none }

/-- The witness placement list: a wall at (0,0) and a wall at (1,0). -/
def reqsW : List PlaceReq := [reqWall00, reqWall10]

/-- The witness record list: the serialization of the witness
placements, reversed to exercise load-order independence. -/
def recsW : List WorldRecord :=
  (serializeWorld (runPlacements envAll emptyEditor reqsW)).reverse

end Editor

namespace AM

/-- What a loader resolves: a GLTF scene (`THREE.Group`, returned by
`loadGltf`) or a texture (`loadTexture`). -/
inductive AssetKind where
  | group
  | texture
deriving DecidableEq

/-- A loaded asset value: its kind, its content identity (determined
by the path's remote data), and its JavaScript object identity
(`inst`), which a clone refreshes while the content stays equal. -/
structure AssetVal where
  kind : AssetKind
  content : ℕ
  inst : ℕ
deriving DecidableEq

/-- What the network returns for a path: `some content` on a
successful load, `none` when the load rejects. -/
def LoadEnv : Type := String → Option ℕ

/-- `AssetManager` state from the constructor: the resolved-original
cache `assetCache`, the pending-promise map `loadingPromises`
(modelled by the identity of the in-flight load), and two counters
supplying fresh load identities and fresh object identities.  The
cache-busting query string appended to the request URL never enters
either map and is not modelled. -/
structure AMState where
  assetCache : String → Option AssetVal
  loadingPromises : String → Option ℕ
  loadCount : ℕ
  instCount : ℕ

/-- The freshly constructed asset manager: both maps empty. -/
def emptyAM : AMState :=
  { assetCache := fun _ => none
    loadingPromises := fun _ => none
    loadCount := 0
    instCount := 0 }

/-- `asset instanceof THREE.Group ? asset.clone() : asset`: a group is
cloned (fresh object identity, same content), a texture is returned as
the same shared instance. -/
def cloneIfGroup (s : AMState) (a : AssetVal) : AMState × AssetVal :=
  match a.kind with
  | .group => ({ s with instCount := s.instCount + 1 }, { a with inst := s.instCount })
  | .texture => (s, a)

/-- JavaScript `String.prototype.split` with a one-character
separator, on character lists. -/
def splitChars (sep : Char) : List Char → List (List Char)
  | [] => [[]]
  | c :: cs =>
      match splitChars sep cs with
      | [] => [[c]]
      | h :: t => if c == sep then [] :: h :: t else (c :: h) :: t

/-- `path.split('.').pop().toLowerCase()` from `getAsset`. -/
def fileExtension (path : String) : String :=
  ⟨((splitChars '.' path.data).getLastD []).map Char.toLower⟩

/-- The `switch (fileExtension)` of `getAsset`: glb/gltf load as a
scene group, png/jpg/jpeg as a texture, anything else is rejected
before any state is touched. -/
def extKind (ext : String) : Option AssetKind :=
  if ext = "glb" ∨ ext = "gltf" then some .group
  else if ext = "png" ∨ ext = "jpg" ∨ ext = "jpeg" then some .texture
  else none

/-- What one `getAsset` call returns to its caller. -/
inductive GetOutcome where
  | immediate (a : AssetVal)
  | awaitLoad (loadId : ℕ)
  | rejected
deriving DecidableEq

/-- `AssetManager.getAsset(path)` (the event-loop step up to its first
await): a cached original is returned immediately (cloned if it is a
group); an in-flight load is shared by returning the pending promise
(the caller's clone-on-resolve is applied at completion); an
unsupported extension rejects without touching state; otherwise a new
load starts and its promise is stored in `loadingPromises` before
anything is awaited. -/
def getAsset (s : AMState) (path : String) : AMState × GetOutcome :=
  match s.assetCache path with
  | some a =>
      let r := cloneIfGroup s a
      (r.1, .immediate r.2)
  | none =>
      match s.loadingPromises path with
      | some lid => (s, .awaitLoad lid)
      | none =>
          match extKind (fileExtension path) with
          | none => (s, .rejected)
          | some _ =>
              ({ s with
                  loadingPromises := fun p =>
                    if p = path then some s.loadCount else s.loadingPromises p
                  loadCount := s.loadCount + 1 },
                .awaitLoad s.loadCount)

/-- The settlement of the pending promise for `path`: on success the
original asset is cached, the pending marker is cleared, and the
promise's value is the original cloned if it is a group; on failure
(or an extension that cannot resolve) the pending marker is cleared
and no value is produced (the rejection propagates). -/
def completeLoad (env : LoadEnv) (s : AMState) (path : String) :
    AMState × Option AssetVal :=
  match env path, extKind (fileExtension path) with
  | some content, some kind =>
      let original : AssetVal := { kind := kind, content := content, inst := s.instCount }
      let s1 : AMState :=
        { s with
            assetCache := fun p => if p = path then some original else s.assetCache p
            loadingPromises := fun p => if p = path then none else s.loadingPromises p
            instCount := s.instCount + 1 }
      let r := cloneIfGroup s1 original
      (r.1, some r.2)
  | _, _ =>
      ({ s with
          loadingPromises := fun p => if p = path then none else s.loadingPromises p },
        none)

/-- What a waiter that shared the pending promise receives once the
promise resolves with value `a`: its chained
`then(asset => asset instanceof THREE.Group ? asset.clone() : asset)`. -/
def deliverPending (s : AMState) (a : AssetVal) : AMState × AssetVal :=
  cloneIfGroup s a

/-- `n` consecutive `getAsset` calls for the same path, issued before
any pending load settles. -/
def issueCalls (s : AMState) (path : String) : ℕ → AMState × List GetOutcome
  | 0 => (s, [])
  | n + 1 =>
      let r1 := getAsset s path
      let r2 := issueCalls r1.1 path n
      (r2.1, r1.2 :: r2.2)

/-- A load environment in which every load fails. -/
def envNone : LoadEnv := fun _ => none

/-- A manager state whose cache holds a group template for "m.glb". -/
def sCachedGroup : AMState :=
  { assetCache := fun p => if p = "m.glb" then some ⟨.group, 7, 0⟩ else none
    loadingPromises := fun _ => none
    loadCount := 1
    instCount := 1 }

/-- A manager state whose cache holds a texture for "t.png". -/
def sCachedTex : AMState :=
  { assetCache := fun p => if p = "t.png" then some ⟨.texture, 9, 0⟩ else none
    loadingPromises := fun _ => none
    loadCount := 1
    instCount := 1 }

end AM

namespace SM

/-- The data a game state owns (`BaseState` fields plus the entity
list of a world state such as `HubWorldState`): a scene, a camera and
entities, each released by `exit()`. -/
structure GameState where
  scene : Option ℕ
  camera : Option ℕ
  entities : List ℕ
deriving DecidableEq

/-- `HubWorldState.exit()`: destroy the entities and clear the list,
null the scene and the camera. -/
def hubExit (st : GameState) : GameState :=
  { st with scene := none, camera := none, entities := [] }

/-- `StateManager` state: the registered-states map (name to state
instance, instance identity modelled by an id), the per-instance
mutable state data, and `currentState` (the id of the current
instance, or null). -/
structure SMState where
  states : String → Option ℕ
  store : ℕ → GameState
  currentState : Option ℕ

/-- The observable actions of one `setState` call, in order: the
"Exiting state" log plus the `exit()` call on the current state, then
either the "Entering state" log plus the `enter()` call, or the
`console.error` for an unknown name. -/
inductive SMEvent where
  | logExiting
  | exitCalled (id : ℕ)
  | logEntering (name : String)
  | enterCalled (id : ℕ)
  | errorStateNotFound (name : String)
deriving DecidableEq

/-- `StateManager.setState(name)`: if a current state exists, log and
call its `exit()` (this happens before the target lookup); then look
the target up by name: if found, assign `currentState` and call
`enter()`, otherwise `console.error` and leave `currentState` as it
is.  The per-subclass behavior of `exit`/`enter` is passed in as
`exitFn`/`enterFn` acting on the state's own data. -/
def setState (exitFn enterFn : GameState → GameState) (m : SMState) (name : String) :
    SMState × List SMEvent :=
  let r1 : SMState × List SMEvent :=
    match m.currentState with
    | some cid =>
        ({ m with store := fun i => if i = cid then exitFn (m.store i) else m.store i },
          [SMEvent.logExiting, SMEvent.exitCalled cid])
    | none => (m, [])
  match r1.1.states name with
  | some nid =>
      ({ r1.1 with
          currentState := some nid
          store := fun i => if i = nid then enterFn (r1.1.store i) else r1.1.store i },
        r1.2 ++ [SMEvent.logEntering name, SMEvent.enterCalled nid])
  | none => (r1.1, r1.2 ++ [SMEvent.errorStateNotFound name])

/-- A concrete manager: one registered state "HubWorld" (instance 0)
with a populated scene, camera and entities, currently active. -/
def m0 : SMState :=
  { states := fun n => if n = "HubWorld" then some 0 else none
    store := fun _ => { scene := some 5, camera := some 6, entities := [1, 2] }
    currentState := some 0 }

end SM

namespace PIC

/-- The key-down state of the four movement keys read through
`inputHandler.isKeyDown`. -/
structure Keys where
  w : Bool
  s : Bool
  a : Bool
  d : Bool
deriving DecidableEq

/-- The component's `moveDirection` accumulator (x and z are set by
the key branches; values stay small integers). -/
structure MoveDir where
  x : ℤ
  z : ℤ
deriving DecidableEq

/-- The body of `PlayerInputComponent.update` before the physics
forwarding: zero the direction, then for each held key adjust one axis
and overwrite the rotation ('w': z-1, rot 180; 's': z+1, rot 0; 'a':
x-1, rot -90; 'd': x+1, rot 90).  `rot0` is the rotation field carried
over from the previous tick (0 at construction). -/
def computeMove (keys : Keys) (rot0 : ℤ) : MoveDir × ℤ :=
  let d0 : MoveDir := ⟨0, 0⟩
  let r0 := rot0
  let p1 : MoveDir × ℤ := if keys.w then ({ d0 with z := d0.z - 1 }, 180) else (d0, r0)
  let p2 : MoveDir × ℤ := if keys.s then ({ p1.1 with z := p1.1.z + 1 }, 0) else p1
  let p3 : MoveDir × ℤ := if keys.a then ({ p2.1 with x := p2.1.x - 1 }, -90) else p2
  let p4 : MoveDir × ℤ := if keys.d then ({ p3.1 with x := p3.1.x + 1 }, 90) else p3
  p4

/-- The calls `update` forwards to the physics component. -/
inductive PhysCmd where
  | setMovementDirection (x z : ℤ)
  | setMovementRotation (y : ℤ)
deriving DecidableEq

/-- `PlayerInputComponent.update(deltaTime)`: compute the direction
and rotation from the key state, then, if `getComponent(Physics)`
finds a physics component, forward both; otherwise forward nothing. -/
def playerInputUpdate (keys : Keys) (rot0 : ℤ) (physicsPresent : Bool) :
    (MoveDir × ℤ) × List PhysCmd :=
  let p := computeMove keys rot0
  (p, if physicsPresent then
      [PhysCmd.setMovementDirection p.1.x p.1.z, PhysCmd.setMovementRotation p.2]
    else [])

/-- The rotations the component can produce. -/
def rotSet : List ℤ := [0, 90, 180, -90]

/-- The five vectors (zero or a cardinal unit) the claim allows. -/
def cardinalSet : List MoveDir := [⟨0, 0⟩, ⟨0, -1⟩, ⟨0, 1⟩, ⟨-1, 0⟩, ⟨1, 0⟩]

end PIC

namespace Portal

/-- `PortalComponent` fields that `update` touches: the configured
target state name, the trigger radius, and the internal cooldown. -/
structure PortalState where
  targetStateName : String
  triggerRadius : ℚ
  cooldown : ℚ
deriving DecidableEq

/-- `PortalComponent.update(deltaTime)`: while the cooldown is
positive, decrement it by `deltaTime` and return; otherwise, when both
render components exist (`dist = some d`, the computed distance
between the two mesh positions), compare the distance with the trigger
radius and, if below, emit the `change-state` event with the
configured target name and reset the cooldown to 2 seconds. -/
def update (p : PortalState) (deltaTime : ℚ) (dist : Option ℚ) :
    PortalState × Option String :=
  if 0 < p.cooldown then
    ({ p with cooldown := p.cooldown - deltaTime }, none)
  else
    match dist with
    | some d =>
        if d < p.triggerRadius then
          ({ p with cooldown := 2 }, some p.targetStateName)
        else (p, none)
    | none => (p, none)

/-- A run of consecutive ticks, each with its `deltaTime` and its
observed distance; returns the final state and the per-tick emitted
events. -/
def run (p : PortalState) : List (ℚ × Option ℚ) → PortalState × List (Option String)
  | [] => (p, [])
  | t :: ts =>
      let r := update p t.1 t.2
      let rr := run r.1 ts
      (rr.1, r.2 :: rr.2)

end Portal

namespace Ent

/-- A three.js material as far as `Entity.destroy` inspects it: its
object identity, the `userData.isCachedMaterial` flag set by the
loader pool, and the identities of the textures hanging off its
texture slots. -/
structure Material where
  matId : ℕ
  isCachedMaterial : Bool
  textures : List ℕ
deriving DecidableEq

/-- What a mesh owns: a geometry and its material or material array
(a single material is the one-element case). -/
structure MeshData where
  geomId : ℕ
  materials : List Material
deriving DecidableEq

/-- A scene-graph object: possibly a mesh, with children; `traverse`
visits the object itself and then every descendant. -/
inductive Obj3D where
  | node (mesh : Option MeshData) (children : List Obj3D)

/-- All meshes visited by `sceneObject.traverse`: the node's own mesh
followed by the meshes of every descendant. -/
def meshesOf : Obj3D → List MeshData
  | .node md cs => md.toList ++ cs.attach.flatMap (fun c => meshesOf c.val)
decreasing_by
  simp_wf
  have := List.sizeOf_lt_of_mem c.2
  omega

/-- The `disposeMaterial` helper inside `Entity.destroy`: a material
is disposed (together with its textures) unless it carries the
`userData.isCachedMaterial` flag; returns the disposed materials. -/
def disposeMaterial (m : Material) : List Material :=
  if m.isCachedMaterial then [] else [m]

/-- A top-level scene child: the group's object identity (JavaScript
reference identity, what `scene.remove` compares) and its subtree. -/
structure SceneChild where
  objId : ℕ
  root : Obj3D

/-- The resources released by one `Entity.destroy` call. -/
structure DisposeLog where
  geoms : List ℕ
  materials : List Material
  textures : List ℕ

/-- `Entity.destroy()`: traverse the owned scene group; for every
mesh dispose its geometry and, through `disposeMaterial`, every
non-pool-cached material with its textures; finally, if the scene
exists, remove the group from it (`scene.remove(this.sceneObject)`). -/
def entityDestroy (scene : Option (List SceneChild)) (self : SceneChild) :
    Option (List SceneChild) × DisposeLog :=
  let meshes := meshesOf self.root
  let disposed := meshes.flatMap (fun mesh => mesh.materials.flatMap disposeMaterial)
  let log : DisposeLog :=
    { geoms := meshes.map (fun mesh => mesh.geomId)
      materials := disposed
      textures := disposed.flatMap (fun m => m.textures) }
  match scene with
  | some cs => (some (cs.filter (fun c => c.objId ≠ self.objId)), log)
  | none => (none, log)

/-- The `ObjectLoader` material pool: the fingerprint-keyed cache and
a supply of fresh material identities. -/
structure PoolState where
  materialCache : List (String × Material)
  nextMatId : ℕ

/-- `ObjectLoader.getOrCreateStandardMaterial(originalMaterial)`: look
the visual fingerprint up (the fingerprint string computed by
`_generateMaterialKey` from the material's visual fields is passed in
here); on a hit return the pooled material; otherwise build a fresh
standard material carrying the original's texture slots, mark it
`userData.isCachedMaterial = true`, dispose the original, and cache
it.  Returns the new pool, the returned material, and the materials
disposed by the call. -/
def getOrCreateStandardMaterial (pool : PoolState) (fingerprint : String)
    (original : Material) : PoolState × Material × List Material :=
  match pool.materialCache.lookup fingerprint with
  | some m => (pool, m, [])
  | none =>
      let m : Material :=
        { matId := pool.nextMatId
          isCachedMaterial := true
          textures := original.textures }
      ({ materialCache := pool.materialCache ++ [(fingerprint, m)]
         nextMatId := pool.nextMatId + 1 },
        m, [original])

/-- `ObjectLoader.dispose()`, restricted to the material pool: every
cached material (with its textures) is disposed and the map is
cleared. -/
def loaderDisposeMaterials (pool : PoolState) : List Material :=
  pool.materialCache.map (fun kv => kv.2)

/-- A pool-cached material (flag set) for witnesses. -/
def matCached : Material := ⟨0, true, [5]⟩

/-- An entity-owned, non-cached material for witnesses. -/
def matPlain : Material := ⟨1, false, [6]⟩

/-- A mesh holding one cached and one plain material. -/
def meshW : MeshData := ⟨10, [matCached, matPlain]⟩

/-- The entity's own scene group for witnesses. -/
def selfChild : SceneChild := ⟨100, .node (some meshW) []⟩

/-- Another group in the same scene, untouched by the destroy. -/
def otherChild : SceneChild := ⟨101, .node none []⟩

/-- A two-child scene for witnesses. -/
def sceneW : List SceneChild := [selfChild, otherChild]

/-- A pool already holding one fingerprinted material. -/
def poolW : PoolState := ⟨[("fp1", matCached)], 1⟩

end Ent

end GameGraph

namespace GameGraph
namespace Editor

theorem selInv_selectObject (s : EditorState) (obj : PlacedObject) (add : Bool) :
    SelInv (selectObject s obj add) := by
  have hmem : obj ∈ (selectObject s obj add).selectedObjects := by
    by_cases hm : obj ∈ (if add then s else deselectAllObjects s).selectedObjects
    · simp [selectObject, hm]
    · simp [selectObject, hm]
  have hobj : (selectObject s obj add).selectedObject = some obj := rfl
  refine ⟨⟨fun hn => ?_, fun he => ?_⟩, fun o ho => ?_⟩
  · rw [hobj] at hn; cases hn
  · rw [he] at hmem; exact absurd hmem (List.not_mem_nil obj)
  · rw [hobj] at ho
    have h := Option.some_inj.mp ho
    rw [← h]; exact hmem

theorem selInv_deselectObject (s : EditorState) (obj : Option PlacedObject) :
    SelInv (deselectObject s obj) := by
  have hsel : (deselectObject s obj).selectedObject =
      (deselectObject s obj).selectedObjects.getLast? := by
    cases obj <;> rfl
  constructor
  · rw [hsel]; exact List.getLast?_eq_none_iff
  · intro o ho
    rw [hsel] at ho
    obtain ⟨h1, h2⟩ := List.mem_getLast?_eq_getLast (Option.mem_def.mpr ho)
    rw [h2]; exact List.getLast_mem h1

theorem selInv_deselectAllObjects (s : EditorState) :
    SelInv (deselectAllObjects s) := by
  unfold deselectAllObjects SelInv
  simp

theorem selInv_deleteSelectedObject (s : EditorState) :
    SelInv (deleteSelectedObject s) := by
  unfold deleteSelectedObject
  exact selInv_deselectAllObjects _

/-- Claim C10: after any of `selectObject`, `deselectObject`,
`deselectAllObjects`, or `deleteSelectedObject`, the primary selection
`selectedObject` is null exactly when the multi-selection list
`selectedObjects` is empty, and when non-null it is a member of that
list. -/
theorem correctedArcade_no_rewrite (l : List Char) :
    charsStartWith ("assets/arcade/".data ++ l) "public/worlds/arcade/".data = false := by
  rfl

theorem correctedArcade_no_rewrite2 (l : List Char) :
    charsStartWith ("assets/arcade/".data ++ l) "public/characters/".data = false := by
  rfl

theorem correctedChars_no_rewrite (l : List Char) :
    charsStartWith ("assets/characters/".data ++ l) "public/worlds/arcade/".data = false := by
  rfl

theorem correctedChars_no_rewrite2 (l : List Char) :
    charsStartWith ("assets/characters/".data ++ l) "public/characters/".data = false := by
  rfl

theorem correctPath_idem (p : String) : correctPath (correctPath p) = correctPath p := by
  unfold correctPath
  by_cases h1 : charsStartWith p.data "public/worlds/arcade/".data = true
  · rw [if_pos h1]
    rw [if_neg (by rw [correctedArcade_no_rewrite]; exact Bool.false_ne_true),
      if_neg (by rw [correctedArcade_no_rewrite2]; exact Bool.false_ne_true)]
  · rw [if_neg h1]
    by_cases h2 : charsStartWith p.data "public/characters/".data = true
    · rw [if_pos h2]
      rw [if_neg (by rw [correctedChars_no_rewrite]; exact Bool.false_ne_true),
        if_neg (by rw [correctedChars_no_rewrite2]; exact Bool.false_ne_true)]
    · rw [if_neg h2, if_neg h1, if_neg h2]

theorem placeObject_of_occupied (env : AssetEnv) (st : EditorState) (req : PlaceReq)
    (ho : isCellOccupied st.occupiedGridCells (reqCell req)
      (getObjectType (correctPath req.modelPath)) = true) :
    placeObject env st req = st := by
  unfold reqCell at ho
  simp only [placeObject]
  rw [if_pos ho]

theorem commitPlace_of_noAsset (env : AssetEnv) (st : EditorState) (req : PlaceReq)
    (he : env (correctPath req.modelPath) = none) :
    commitPlace env st req = st := by
  simp only [commitPlace]
  rw [he]

theorem commitPlace_success (env : AssetEnv) (st : EditorState) (req : PlaceReq)
    (tpl : AssetTemplate)
    (he : env (correctPath req.modelPath) = some tpl) :
    commitPlace env st req =
      { st with
          editableObjects := st.editableObjects ++ [newObj st req tpl]
          occupiedGridCells := fun c =>
            if c = reqCell req then
              st.occupiedGridCells (reqCell req) ++ [entryOf (newObj st req tpl)]
            else st.occupiedGridCells c
          nextId := st.nextId + 1 } := by
  simp only [commitPlace]
  rw [he]
  simp [addObjectToGrid, newObj, entryOf, reqCell, gridSize, round_intCast]

theorem placeObject_of_noAsset (env : AssetEnv) (st : EditorState) (req : PlaceReq)
    (he : env (correctPath req.modelPath) = none) :
    placeObject env st req = st := by
  simp only [placeObject]
  by_cases ho : isCellOccupied st.occupiedGridCells
      (round (req.x / gridSize), round (req.z / gridSize))
      (getObjectType (correctPath req.modelPath)) = true
  · rw [if_pos ho]
  · rw [if_neg ho]
    exact commitPlace_of_noAsset env st req he

theorem placeObject_success (env : AssetEnv) (st : EditorState) (req : PlaceReq)
    (tpl : AssetTemplate)
    (ho : isCellOccupied st.occupiedGridCells (reqCell req)
      (getObjectType (correctPath req.modelPath)) = false)
    (he : env (correctPath req.modelPath) = some tpl) :
    placeObject env st req =
      { st with
          editableObjects := st.editableObjects ++ [newObj st req tpl]
          occupiedGridCells := fun c =>
            if c = reqCell req then
              st.occupiedGridCells (reqCell req) ++ [entryOf (newObj st req tpl)]
            else st.occupiedGridCells c
          nextId := st.nextId + 1 } := by
  have ho' : ¬ isCellOccupied st.occupiedGridCells
      (round (req.x / gridSize), round (req.z / gridSize))
      (getObjectType (correctPath req.modelPath)) = true := by
    unfold reqCell at ho
    rw [ho]
    exact Bool.false_ne_true
  simp only [placeObject]
  rw [if_neg ho']
  exact commitPlace_success env st req tpl he

theorem isCellOccupied_floor_iff (g : Grid) (cell : ℤ × ℤ) :
    isCellOccupied g cell ObjType.floor = true ↔
      ∃ e ∈ g cell, e.type = ObjType.floor := by
  unfold isCellOccupied
  simp

theorem isCellOccupied_nonfloor_iff (g : Grid) (cell : ℤ × ℤ) (t : ObjType)
    (ht : t ≠ ObjType.floor) :
    isCellOccupied g cell t = true ↔ ∃ e ∈ g cell, e.type ≠ ObjType.floor := by
  unfold isCellOccupied
  rw [if_neg ht]
  simp

theorem isCellOccupied_floor_count (g : Grid) (cell : ℤ × ℤ) :
    isCellOccupied g cell ObjType.floor = false ↔ (g cell).countP floorP = 0 := by
  constructor
  · intro h
    apply List.countP_eq_zero.mpr
    intro e he hf
    have hb : isCellOccupied g cell ObjType.floor = true :=
      (isCellOccupied_floor_iff g cell).mpr ⟨e, he, by simpa [floorP] using hf⟩
    rw [h] at hb
    exact Bool.false_ne_true hb
  · intro h
    cases hb : isCellOccupied g cell ObjType.floor
    · rfl
    · exfalso
      obtain ⟨e, he, ht⟩ := (isCellOccupied_floor_iff g cell).mp hb
      have hz := List.countP_eq_zero.mp h e he
      simp [floorP, ht] at hz

theorem isCellOccupied_nonfloor_count (g : Grid) (cell : ℤ × ℤ) (t : ObjType)
    (ht : t ≠ ObjType.floor) :
    isCellOccupied g cell t = false ↔ (g cell).countP nonFloorP = 0 := by
  constructor
  · intro h
    apply List.countP_eq_zero.mpr
    intro e he hf
    have hb : isCellOccupied g cell t = true :=
      (isCellOccupied_nonfloor_iff g cell t ht).mpr
        ⟨e, he, by simpa [nonFloorP] using hf⟩
    rw [h] at hb
    exact Bool.false_ne_true hb
  · intro h
    cases hb : isCellOccupied g cell t
    · rfl
    · exfalso
      obtain ⟨e, he, hne⟩ := (isCellOccupied_nonfloor_iff g cell t ht).mp hb
      have hz := List.countP_eq_zero.mp h e he
      simp [nonFloorP, hne] at hz

theorem objCell_newObj (st : EditorState) (req : PlaceReq) (tpl : AssetTemplate) :
    objCell (newObj st req tpl) = reqCell req := by
  simp [objCell, newObj, reqCell, gridSize, round_intCast]

theorem entryOf_newObj (st : EditorState) (req : PlaceReq) (tpl : AssetTemplate) :
    entryOf (newObj st req tpl) =
      { type := getObjectType (correctPath req.modelPath), objId := st.nextId } := by
  simp [entryOf, newObj]

theorem entriesFor_append_single (objs : List PlacedObject) (o : PlacedObject)
    (cell : ℤ × ℤ) :
    entriesFor (objs ++ [o]) cell =
      entriesFor objs cell ++ (if objCell o = cell then [entryOf o] else []) := by
  unfold entriesFor
  rw [List.filter_append, List.map_append]
  by_cases h : objCell o = cell
  · simp [h]
  · simp [h]

theorem bool_eq_false_of_ne_true {b : Bool} (h : ¬ b = true) : b = false := by
  cases b
  · rfl
  · exact absurd rfl h

theorem gInv_placeObject (env : AssetEnv) (st : EditorState) (req : PlaceReq)
    (h : GInv st) : GInv (placeObject env st req) := by
  by_cases ho : isCellOccupied st.occupiedGridCells (reqCell req)
      (getObjectType (correctPath req.modelPath)) = true
  · rw [placeObject_of_occupied env st req ho]; exact h
  · have hf := bool_eq_false_of_ne_true ho
    cases he : env (correctPath req.modelPath) with
    | none => rw [placeObject_of_noAsset env st req he]; exact h
    | some tpl =>
        rw [placeObject_success env st req tpl hf he]
        intro cell
        simp only
        rw [entriesFor_append_single, objCell_newObj]
        by_cases hc : cell = reqCell req
        · rw [if_pos hc, if_pos hc.symm, hc, h (reqCell req)]
        · rw [if_neg hc, if_neg (fun hx => hc hx.symm), List.append_nil, h cell]

theorem cellOK_placeObject (env : AssetEnv) (st : EditorState) (req : PlaceReq)
    (h : CellOK st) : CellOK (placeObject env st req) := by
  by_cases ho : isCellOccupied st.occupiedGridCells (reqCell req)
      (getObjectType (correctPath req.modelPath)) = true
  · rw [placeObject_of_occupied env st req ho]; exact h
  · have hf := bool_eq_false_of_ne_true ho
    cases he : env (correctPath req.modelPath) with
    | none => rw [placeObject_of_noAsset env st req he]; exact h
    | some tpl =>
        rw [placeObject_success env st req tpl hf he]
        intro cell
        simp only
        by_cases hc : cell = reqCell req
        · rw [if_pos hc]
          rw [entryOf_newObj]
          obtain ⟨h1, h2⟩ := h (reqCell req)
          by_cases hft : getObjectType (correctPath req.modelPath) = ObjType.floor
          · have hz : (st.occupiedGridCells (reqCell req)).countP floorP = 0 :=
              (isCellOccupied_floor_count _ _).mp (by rw [← hft]; exact hf)
            constructor
            · rw [List.countP_append, hz]
              simp [floorP, hft]
            · rw [List.countP_append]
              have : List.countP nonFloorP
                  [({ type := getObjectType (correctPath req.modelPath),
                      objId := st.nextId } : GridEntry)] = 0 := by
                simp [nonFloorP, hft]
              rw [this]
              simpa using h2
          · have hz : (st.occupiedGridCells (reqCell req)).countP nonFloorP = 0 :=
              (isCellOccupied_nonfloor_count _ _ _ hft).mp hf
            constructor
            · rw [List.countP_append]
              have : List.countP floorP
                  [({ type := getObjectType (correctPath req.modelPath),
                      objId := st.nextId } : GridEntry)] = 0 := by
                simp [floorP, hft]
              rw [this]
              simpa using h1
            · rw [List.countP_append, hz]
              simp [nonFloorP, hft]
        · rw [if_neg hc]
          exact h cell

theorem wf_placeObject (env : AssetEnv) (st : EditorState) (req : PlaceReq)
    (h : ∀ o ∈ st.editableObjects, WFObj env o) :
    ∀ o ∈ (placeObject env st req).editableObjects, WFObj env o := by
  by_cases ho : isCellOccupied st.occupiedGridCells (reqCell req)
      (getObjectType (correctPath req.modelPath)) = true
  · rw [placeObject_of_occupied env st req ho]; exact h
  · have hf := bool_eq_false_of_ne_true ho
    cases he : env (correctPath req.modelPath) with
    | none => rw [placeObject_of_noAsset env st req he]; exact h
    | some tpl =>
        rw [placeObject_success env st req tpl hf he]
        intro o hmem
        simp only [List.mem_append, List.mem_singleton] at hmem
        rcases hmem with hmem | rfl
        · exact h o hmem
        · refine ⟨round (req.x / gridSize), round (req.z / gridSize), tpl, ?_, ?_, ?_, ?_, ?_, ?_⟩
          · rw [show (newObj st req tpl).modelPath = correctPath req.modelPath from rfl, he]
          · rw [show (newObj st req tpl).modelPath = correctPath req.modelPath from rfl]
            exact correctPath_idem req.modelPath
          · show (⟨_, tpl.yOff, _⟩ : Vec3) = _
            simp [gridSize]
          · rfl
          · rfl
          · rfl

theorem stInv_placeObject (env : AssetEnv) (st : EditorState) (req : PlaceReq)
    (h : StInv env st) : StInv env (placeObject env st req) :=
  ⟨gInv_placeObject env st req h.1, cellOK_placeObject env st req h.2.1,
    wf_placeObject env st req h.2.2⟩

theorem stInv_emptyEditor (env : AssetEnv) : StInv env emptyEditor := by
  refine ⟨fun cell => rfl, fun cell => by simp [emptyEditor], ?_⟩
  intro o hmem
  simp [emptyEditor] at hmem

theorem stInv_clearScene (env : AssetEnv) (s : EditorState) :
    StInv env (clearScene s) := by
  refine ⟨fun cell => rfl, fun cell => by simp [clearScene, deselectAllObjects], ?_⟩
  intro o hmem
  simp [clearScene, deselectAllObjects] at hmem

theorem stInv_runPlacements (env : AssetEnv) (reqs : List PlaceReq) :
    ∀ st : EditorState, StInv env st → StInv env (runPlacements env st reqs) := by
  induction reqs with
  | nil => intro st h; exact h
  | cons r rest ih =>
      intro st h
      exact ih (placeObject env st r) (stInv_placeObject env st r h)

theorem wfObj_editable {env : AssetEnv} {o : PlacedObject} (h : WFObj env o) :
    o.isEditableAsset = true := by
  obtain ⟨_, _, _, _, _, _, _, _, he⟩ := h
  exact he

theorem serializeWorld_eq_map (s : EditorState)
    (h : ∀ o ∈ s.editableObjects, o.isEditableAsset = true) :
    serializeWorld s = s.editableObjects.map toRecord := by
  unfold serializeWorld
  rw [List.filter_eq_self.mpr h]

theorem wfRec_serializeWorld (env : AssetEnv) (s : EditorState) (h : StInv env s) :
    ∀ r ∈ serializeWorld s, WFRec env r := by
  intro r hr
  rw [serializeWorld_eq_map s (fun o ho => wfObj_editable (h.2.2 o ho))] at hr
  obtain ⟨o, ho, rfl⟩ := List.mem_map.mp hr
  obtain ⟨i, j, tpl, h1, h2, h3, h4, h5, _⟩ := h.2.2 o ho
  exact ⟨i, j, tpl, h1, h2, h3, h4, h5⟩

theorem toRecord_newObj_of_wfRec (env : AssetEnv) (st : EditorState)
    (r : WorldRecord) (tpl : AssetTemplate)
    (henv : env r.path = some tpl) (hcorr : correctPath r.path = r.path)
    (hpos : ∃ i j : ℤ, r.position = ⟨(i : ℚ), tpl.yOff, (j : ℚ)⟩)
    (hrx : r.rotation.x = tpl.rotX) (hrz : r.rotation.z = tpl.rotZ) :
    toRecord (newObj st (reqOfRec r) tpl) = r := by
  obtain ⟨i, j, hp⟩ := hpos
  unfold toRecord newObj reqOfRec
  simp only
  have hx : round (r.position.x / gridSize) = i := by
    rw [hp]; simp [gridSize]
  have hz : round (r.position.z / gridSize) = j := by
    rw [hp]; simp [gridSize]
  rw [hx, hz]
  have hpos' : (⟨(i : ℚ) * gridSize, tpl.yOff, (j : ℚ) * gridSize⟩ : Vec3) = r.position := by
    rw [hp]; simp [gridSize]
  have hrot : (⟨tpl.rotX, r.rotation.y, tpl.rotZ⟩ : Vec3) = r.rotation := by
    rw [← hrx, ← hrz]
  rw [hpos', hrot, hcorr]

theorem isCellOccupied_clearScene (s : EditorState) (cell : ℤ × ℤ) (t : ObjType) :
    isCellOccupied (clearScene s).occupiedGridCells cell t = false := by
  unfold isCellOccupied clearScene deselectAllObjects
  simp

theorem clearScene_idem (s : EditorState) :
    clearScene (clearScene s) = clearScene s := rfl

theorem loadWorldData_eq_commits (env : AssetEnv) (s : EditorState)
    (records : List WorldRecord) :
    loadWorldData env s records =
      records.foldl (fun st r => commitPlace env st (reqOfRec r)) (clearScene s) := by
  have hf : records.filter (fun r =>
      !(isCellOccupied (clearScene s).occupiedGridCells (recCell r)
        (getObjectType (correctPath r.path)))) = records := by
    apply List.filter_eq_self.mpr
    intro r _
    rw [isCellOccupied_clearScene]
    rfl
  simp only [loadWorldData]
  rw [hf]

theorem commit_fold_length (env : AssetEnv) (L : List WorldRecord) :
    ∀ st : EditorState, (∀ r ∈ L, env (correctPath r.path) ≠ none) →
    (L.foldl (fun st r => commitPlace env st (reqOfRec r)) st).editableObjects.length =
      st.editableObjects.length + L.length := by
  induction L with
  | nil => intro st _; simp
  | cons r rest ih =>
      intro st hres
      cases he : env (correctPath r.path) with
      | none => exact absurd he (hres r (List.mem_cons_self r rest))
      | some tpl =>
          have henv' : env (correctPath (reqOfRec r).modelPath) = some tpl := he
          have hsucc := commitPlace_success env st (reqOfRec r) tpl henv'
          rw [List.foldl_cons,
            ih _ (fun r' hr' => hres r' (List.mem_cons_of_mem r hr')), hsucc]
          simp [List.length_cons]
          omega

theorem commit_fold_serialize (env : AssetEnv) (L : List WorldRecord) :
    ∀ st : EditorState, (∀ r ∈ L, WFRec env r) →
    serializeWorld (L.foldl (fun st r => commitPlace env st (reqOfRec r)) st) =
      serializeWorld st ++ L := by
  induction L with
  | nil => intro st _; simp
  | cons r rest ih =>
      intro st hw
      obtain ⟨i, j, tpl, henv, hcorr, hpos, hrx, hrz⟩ := hw r (List.mem_cons_self r rest)
      have henv' : env (correctPath (reqOfRec r).modelPath) = some tpl := by
        have hc : correctPath (reqOfRec r).modelPath = r.path := hcorr
        rw [hc]
        exact henv
      have hsucc := commitPlace_success env st (reqOfRec r) tpl henv'
      have hrecnew : toRecord (newObj st (reqOfRec r) tpl) = r :=
        toRecord_newObj_of_wfRec env st r tpl henv hcorr ⟨i, j, hpos⟩ hrx hrz
      have hser' : serializeWorld (commitPlace env st (reqOfRec r)) =
          serializeWorld st ++ [r] := by
        rw [hsucc]
        unfold serializeWorld
        simp only [List.filter_append, List.map_append]
        have hfe : List.filter (fun o => o.isEditableAsset)
            [newObj st (reqOfRec r) tpl] = [newObj st (reqOfRec r) tpl] := by
          simp [newObj]
        rw [hfe]
        simp [hrecnew]
      rw [List.foldl_cons,
        ih _ (fun r' hr' => hw r' (List.mem_cons_of_mem r hr')),
        hser', List.append_assoc]
      rfl

/-- Claim C2: in the editor grid, placing a non-floor asset into a
cell already holding a non-floor object is a no-op; placing a floor
asset into a cell already holding a floor object is a no-op; placing a
floor asset into a cell holding only non-floor objects succeeds; and
every state reached by placement keeps at most one floor and at most
one non-floor entry per cell. -/
theorem C2_occupancy_rules :
    (∀ (env : AssetEnv) (s : EditorState) (req : PlaceReq),
        getObjectType (correctPath req.modelPath) ≠ ObjType.floor →
        (∃ e ∈ s.occupiedGridCells (reqCell req), e.type ≠ ObjType.floor) →
        placeObject env s req = s) ∧
    (∀ (env : AssetEnv) (s : EditorState) (req : PlaceReq),
        getObjectType (correctPath req.modelPath) = ObjType.floor →
        (∃ e ∈ s.occupiedGridCells (reqCell req), e.type = ObjType.floor) →
        placeObject env s req = s) ∧
    (∀ (env : AssetEnv) (s : EditorState) (req : PlaceReq) (tpl : AssetTemplate),
        getObjectType (correctPath req.modelPath) = ObjType.floor →
        (∀ e ∈ s.occupiedGridCells (reqCell req), e.type ≠ ObjType.floor) →
        env (correctPath req.modelPath) = some tpl →
        (placeObject env s req).editableObjects =
          s.editableObjects ++ [newObj s req tpl]) ∧
    (∀ (env : AssetEnv) (reqs : List PlaceReq),
        CellOK (runPlacements env emptyEditor reqs)) := by
  refine ⟨?_, ?_, ?_, ?_⟩
  · intro env s req hne hex
    apply placeObject_of_occupied
    exact (isCellOccupied_nonfloor_iff s.occupiedGridCells (reqCell req) _ hne).mpr hex
  · intro env s req hfl hex
    apply placeObject_of_occupied
    rw [hfl]
    exact (isCellOccupied_floor_iff s.occupiedGridCells (reqCell req)).mpr hex
  · intro env s req tpl hfl hall he
    have hocc : isCellOccupied s.occupiedGridCells (reqCell req)
        (getObjectType (correctPath req.modelPath)) = false := by
      rw [hfl]
      cases hb : isCellOccupied s.occupiedGridCells (reqCell req) ObjType.floor
      · rfl
      · obtain ⟨e, hme, hte⟩ :=
          (isCellOccupied_floor_iff s.occupiedGridCells (reqCell req)).mp hb
        exact absurd hte (hall e hme)
    rw [placeObject_success env s req tpl hocc he]
  · intro env reqs
    exact (stInv_runPlacements env reqs emptyEditor (stInv_emptyEditor env)).2.1

theorem reqCell_reqRock00 : reqCell reqRock00 = ((0 : ℤ), (0 : ℤ)) := by
  simp [reqCell, reqRock00, gridSize]

theorem reqCell_reqFloor00 : reqCell reqFloor00 = ((0 : ℤ), (0 : ℤ)) := by
  simp [reqCell, reqFloor00, gridSize]

theorem C2_witness :
    (getObjectType (correctPath reqRock00.modelPath) ≠ ObjType.floor ∧
      (∃ e ∈ sOneWall.occupiedGridCells (reqCell reqRock00), e.type ≠ ObjType.floor) ∧
      placeObject envAll sOneWall reqRock00 = sOneWall) ∧
    (getObjectType (correctPath reqFloor00.modelPath) = ObjType.floor ∧
      (∃ e ∈ sOneFloor.occupiedGridCells (reqCell reqFloor00), e.type = ObjType.floor) ∧
      placeObject envAll sOneFloor reqFloor00 = sOneFloor) ∧
    ((∀ e ∈ sOneWall.occupiedGridCells (reqCell reqFloor00), e.type ≠ ObjType.floor) ∧
      (placeObject envAll sOneWall reqFloor00).editableObjects =
        sOneWall.editableObjects ++ [newObj sOneWall reqFloor00 ⟨0, 0, 0⟩]) :=
  ⟨⟨by decide, by rw [reqCell_reqRock00]; simp [sOneWall],
      C2_occupancy_rules.1 envAll sOneWall reqRock00 (by decide)
        (by rw [reqCell_reqRock00]; simp [sOneWall])⟩,
    ⟨by decide, by rw [reqCell_reqFloor00]; simp [sOneFloor],
      C2_occupancy_rules.2.1 envAll sOneFloor reqFloor00 (by decide)
        (by rw [reqCell_reqFloor00]; simp [sOneFloor])⟩,
    ⟨by rw [reqCell_reqFloor00]; simp [sOneWall],
      C2_occupancy_rules.2.2.1 envAll sOneWall reqFloor00 ⟨0, 0, 0⟩ (by decide)
        (by rw [reqCell_reqFloor00]; simp [sOneWall]) rfl⟩⟩

/-- Claim C4: serializing the placed objects and loading that
serialization in any order reproduces the same multiset of records:
re-serializing after the load yields a permutation of the original
records, for every placement history and every load order. -/
theorem C4_round_trip (env : AssetEnv) (reqs : List PlaceReq) (s2 : EditorState)
    (recs' : List WorldRecord)
    (hperm : recs'.Perm (serializeWorld (runPlacements env emptyEditor reqs))) :
    (serializeWorld (loadWorldData env s2 recs')).Perm
      (serializeWorld (runPlacements env emptyEditor reqs)) := by
  have hinv : StInv env (runPlacements env emptyEditor reqs) :=
    stInv_runPlacements env reqs emptyEditor (stInv_emptyEditor env)
  have hwf : ∀ r ∈ serializeWorld (runPlacements env emptyEditor reqs), WFRec env r :=
    wfRec_serializeWorld env _ hinv
  have hwf' : ∀ r ∈ recs', WFRec env r := fun r hr => hwf r (hperm.mem_iff.mp hr)
  rw [loadWorldData_eq_commits, commit_fold_serialize env recs' (clearScene s2) hwf']
  have hempty : serializeWorld (clearScene s2) = [] := rfl
  rw [hempty, List.nil_append]
  exact hperm

theorem C4_witness :
    recsW.Perm (serializeWorld (runPlacements envAll emptyEditor reqsW)) ∧
    (serializeWorld (loadWorldData envAll emptyEditor recsW)).Perm
      (serializeWorld (runPlacements envAll emptyEditor reqsW)) :=
  ⟨List.reverse_perm _,
    C4_round_trip envAll reqsW emptyEditor recsW (List.reverse_perm _)⟩

/-- Claim C5: loading a saved world first clears the current editor
scene (loading into any prior state equals loading into the cleared
one) and then places every record of the saved object list with the
occupancy checks bypassed in effect: each record's occupancy check
runs synchronously against the just-cleared grid, before any placement
has committed, so it never rejects a record, and after `loadWorldData`
completes the number of placed editor objects equals the number of
records in the save (one placed object per resolving asset), even when
two records map to the same grid cell with conflicting types. -/
theorem C5_load_places_every_record :
    (∀ (env : AssetEnv) (s : EditorState) (recs : List WorldRecord),
      loadWorldData env s recs = loadWorldData env (clearScene s) recs) ∧
    (∀ (s : EditorState) (r : WorldRecord),
      isCellOccupied (clearScene s).occupiedGridCells (recCell r)
        (getObjectType (correctPath r.path)) = false) ∧
    (∀ (env : AssetEnv) (s : EditorState) (recs : List WorldRecord),
      (∀ r ∈ recs, env (correctPath r.path) ≠ none) →
      (loadWorldData env s recs).editableObjects.length = recs.length) := by
  refine ⟨?_, ?_, ?_⟩
  · intro env s recs
    rw [loadWorldData_eq_commits, loadWorldData_eq_commits, clearScene_idem]
  · intro s r
    exact isCellOccupied_clearScene s (recCell r) _
  · intro env s recs hres
    rw [loadWorldData_eq_commits, commit_fold_length env recs (clearScene s) hres]
    have hz : (clearScene s).editableObjects.length = 0 := rfl
    omega

theorem C5_witness :
    (∀ r ∈ ([recWall00, recWall00] : List WorldRecord),
      envAll (correctPath r.path) ≠ none) ∧
    recCell recWall00 = recCell recWall00 ∧
    getObjectType (correctPath recWall00.path) ≠ ObjType.floor ∧
    (loadWorldData envAll emptyEditor [recWall00, recWall00]).editableObjects.length =
      2 := by
  have hres : ∀ r ∈ ([recWall00, recWall00] : List WorldRecord),
      envAll (correctPath r.path) ≠ none := by
    intro r _
    simp [envAll]
  refine ⟨hres, rfl, by decide, ?_⟩
  have h := C5_load_places_every_record.2.2 envAll emptyEditor
    [recWall00, recWall00] hres
  simpa using h

/-- Claim C10: after any of `selectObject`, `deselectObject`,
`deselectAllObjects`, or `deleteSelectedObject`, the primary selection
`selectedObject` is null exactly when the multi-selection list
`selectedObjects` is empty, and when non-null it is a member of that
list. -/
theorem C10_selection_invariant :
    (∀ (s : EditorState) (obj : PlacedObject) (add : Bool),
        SelInv (selectObject s obj add)) ∧
    (∀ (s : EditorState) (obj : Option PlacedObject),
        SelInv (deselectObject s obj)) ∧
    (∀ s : EditorState, SelInv (deselectAllObjects s)) ∧
    (∀ s : EditorState, SelInv (deleteSelectedObject s)) :=
  ⟨selInv_selectObject, selInv_deselectObject,
    selInv_deselectAllObjects, selInv_deleteSelectedObject⟩

end Editor
end GameGraph

namespace GameGraph
namespace AM

theorem issueCalls_pending (path : String) (lid : ℕ) :
    ∀ (n : ℕ) (s : AMState), s.assetCache path = none →
    s.loadingPromises path = some lid →
    issueCalls s path n = (s, List.replicate n (GetOutcome.awaitLoad lid)) := by
  intro n
  induction n with
  | zero => intro s _ _; rfl
  | succ m ih =>
      intro s h1 h2
      have hget : getAsset s path = (s, .awaitLoad lid) := by
        unfold getAsset
        rw [h1, h2]
      simp only [issueCalls, hget, ih s h1 h2, List.replicate]

/-- Claim C3: with no cached resource and no pending load for a
supported path, N >= 1 `getAsset` calls before the load settles start
exactly one underlying load and all receive the same pending load;
when that load fails the pending marker is cleared, nothing is cached,
and a later `getAsset` starts a fresh load; when it resolves, the one
original asset all callers' results derive from is cached. -/
theorem C3_single_inflight_load (s : AMState) (path : String) (k : AssetKind)
    (n : ℕ) (h1 : s.assetCache path = none) (h2 : s.loadingPromises path = none)
    (hk : extKind (fileExtension path) = some k) (hn : 1 ≤ n) :
    (issueCalls s path n).1.loadCount = s.loadCount + 1 ∧
    (issueCalls s path n).1.loadingPromises path = some s.loadCount ∧
    (∀ o ∈ (issueCalls s path n).2, o = GetOutcome.awaitLoad s.loadCount) ∧
    (∀ env : LoadEnv, env path = none →
      (completeLoad env (issueCalls s path n).1 path).2 = none ∧
      (completeLoad env (issueCalls s path n).1 path).1.loadingPromises path = none ∧
      (completeLoad env (issueCalls s path n).1 path).1.assetCache path = none ∧
      (getAsset (completeLoad env (issueCalls s path n).1 path).1 path).2 =
        GetOutcome.awaitLoad
          (completeLoad env (issueCalls s path n).1 path).1.loadCount) ∧
    (∀ (env : LoadEnv) (content : ℕ), env path = some content →
      (completeLoad env (issueCalls s path n).1 path).1.assetCache path =
        some ⟨k, content, (issueCalls s path n).1.instCount⟩) := by
  obtain ⟨m, rfl⟩ : ∃ m, n = m + 1 := ⟨n - 1, by omega⟩
  have hget : getAsset s path =
      ({ s with
          loadingPromises := fun p =>
            if p = path then some s.loadCount else s.loadingPromises p
          loadCount := s.loadCount + 1 },
        .awaitLoad s.loadCount) := by
    unfold getAsset
    rw [h1, h2, hk]
  set s1 : AMState :=
    { s with
        loadingPromises := fun p =>
          if p = path then some s.loadCount else s.loadingPromises p
        loadCount := s.loadCount + 1 } with hs1
  have h1' : s1.assetCache path = none := h1
  have h2' : s1.loadingPromises path = some s.loadCount := by
    rw [hs1]
    simp
  have hiss : issueCalls s path (m + 1) =
      (s1, .awaitLoad s.loadCount :: List.replicate m (.awaitLoad s.loadCount)) := by
    simp only [issueCalls, hget, issueCalls_pending path s.loadCount m s1 h1' h2']
  rw [hiss]
  refine ⟨rfl, h2', ?_, ?_, ?_⟩
  · intro o ho
    simp only [List.mem_cons] at ho
    rcases ho with rfl | ho
    · rfl
    · exact List.eq_of_mem_replicate ho
  · intro env henv
    have hcomp : completeLoad env s1 path =
        ({ s1 with
            loadingPromises := fun p => if p = path then none else s1.loadingPromises p },
          none) := by
      unfold completeLoad
      rw [henv, hk]
    rw [hcomp]
    refine ⟨rfl, by simp, h1', ?_⟩
    unfold getAsset
    rw [show ({ s1 with
        loadingPromises := fun p =>
          if p = path then none else s1.loadingPromises p } : AMState).assetCache path =
      none from h1']
    rw [hk]
    simp
  · intro env content henv
    unfold completeLoad
    rw [henv, hk]
    simp only
    cases k <;> simp [cloneIfGroup]

theorem C3_witness :
    extKind (fileExtension "m.glb") = some AssetKind.group ∧
    (issueCalls emptyAM "m.glb" 3).1.loadCount = emptyAM.loadCount + 1 ∧
    (∀ o ∈ (issueCalls emptyAM "m.glb" 3).2,
      o = GetOutcome.awaitLoad emptyAM.loadCount) ∧
    (completeLoad envNone (issueCalls emptyAM "m.glb" 3).1 "m.glb").1.loadingPromises
      "m.glb" = none ∧
    (getAsset (completeLoad envNone (issueCalls emptyAM "m.glb" 3).1 "m.glb").1
        "m.glb").2 =
      GetOutcome.awaitLoad
        (completeLoad envNone (issueCalls emptyAM "m.glb" 3).1 "m.glb").1.loadCount := by
  have hk : extKind (fileExtension "m.glb") = some AssetKind.group := by decide
  have h := C3_single_inflight_load emptyAM "m.glb" AssetKind.group 3 rfl rfl hk
    (by decide)
  exact ⟨hk, h.1, h.2.2.1, (h.2.2.2.1 envNone rfl).2.1, (h.2.2.2.1 envNone rfl).2.2.2⟩

/-- Claim C6: a `getAsset` call served from the cache or from a shared
in-flight load returns a fresh clone when the asset is a scene-graph
(group) template, so two such calls return distinct instances with the
same content, while a texture is returned as the same shared
instance. -/
theorem C6_group_clone_texture_shared (s : AMState) (path : String) (a : AssetVal)
    (hc : s.assetCache path = some a) :
    (a.kind = .group →
      ∃ v1 v2 : AssetVal,
        (getAsset s path).2 = .immediate v1 ∧
        (getAsset (getAsset s path).1 path).2 = .immediate v2 ∧
        v1.inst ≠ v2.inst ∧
        v1.content = a.content ∧ v2.content = a.content ∧
        v1.kind = .group ∧ v2.kind = .group) ∧
    (a.kind = .texture → getAsset s path = (s, .immediate a)) ∧
    (a.kind = .group → ∀ s' : AMState,
      (deliverPending s' a).2.content = a.content ∧
      (deliverPending (deliverPending s' a).1 a).2.inst ≠ (deliverPending s' a).2.inst) ∧
    (a.kind = .texture → ∀ s' : AMState, deliverPending s' a = (s', a)) := by
  refine ⟨?_, ?_, ?_, ?_⟩
  · intro hg
    refine ⟨{ a with inst := s.instCount }, { a with inst := s.instCount + 1 },
      ?_, ?_, by simp, rfl, rfl, hg, hg⟩
    · unfold getAsset
      rw [hc]
      simp [cloneIfGroup, hg]
    · have hfst : (getAsset s path).1 = { s with instCount := s.instCount + 1 } := by
        unfold getAsset
        rw [hc]
        simp [cloneIfGroup, hg]
      rw [hfst]
      unfold getAsset
      rw [show ({ s with instCount := s.instCount + 1 } : AMState).assetCache path =
        some a from hc]
      simp [cloneIfGroup, hg]
  · intro ht
    unfold getAsset
    rw [hc]
    simp [cloneIfGroup, ht]
  · intro hg s'
    unfold deliverPending cloneIfGroup
    rw [hg]
    simp
  · intro ht s'
    unfold deliverPending cloneIfGroup
    rw [ht]

theorem C6_witness :
    (∃ v1 v2 : AssetVal,
      (getAsset sCachedGroup "m.glb").2 = .immediate v1 ∧
      (getAsset (getAsset sCachedGroup "m.glb").1 "m.glb").2 = .immediate v2 ∧
      v1.inst ≠ v2.inst ∧
      v1.content = 7 ∧ v2.content = 7 ∧
      v1.kind = .group ∧ v2.kind = .group) ∧
    getAsset sCachedTex "t.png" = (sCachedTex, .immediate ⟨.texture, 9, 0⟩) :=
  ⟨(C6_group_clone_texture_shared sCachedGroup "m.glb" ⟨.group, 7, 0⟩ rfl).1 rfl,
    (C6_group_clone_texture_shared sCachedTex "t.png" ⟨.texture, 9, 0⟩ rfl).2.1 rfl⟩

end AM
end GameGraph

namespace GameGraph
namespace SM

/-- Claim C1 counterexample: with the registered map lacking
"Nonexistent" and HubWorld (instance 0) current, `setState` leaves
`currentState` at the same instance and logs the error, but it DOES
invoke the current state's `exit()` first: the exit call is observable
and the state's scene, camera and entities are torn down. -/
theorem C1_counterexample :
    (setState hubExit id m0 "Nonexistent").1.currentState = some 0 ∧
    SMEvent.errorStateNotFound "Nonexistent" ∈ (setState hubExit id m0 "Nonexistent").2 ∧
    SMEvent.exitCalled 0 ∈ (setState hubExit id m0 "Nonexistent").2 ∧
    m0.store 0 = { scene := some 5, camera := some 6, entities := [1, 2] } ∧
    (setState hubExit id m0 "Nonexistent").1.store 0 =
      { scene := none, camera := none, entities := [] } := by
  refine ⟨?_, ?_, ?_, rfl, ?_⟩ <;> decide

/-- Claim C1 (amended): `setState` with an unknown name logs an error,
leaves `currentState` referring to the same state instance, leaves the
registered-states map unchanged, and calls no `enter()`; however the
current state's `exit()` IS invoked before the lookup, so its scene,
camera and entities are released by its exit handler, while every
other state instance is untouched. -/
theorem C1_unknown_state_behavior (exitFn enterFn : GameState → GameState)
    (m : SMState) (name : String) (cid : ℕ)
    (hname : m.states name = none) (hcur : m.currentState = some cid) :
    (setState exitFn enterFn m name).1.currentState = some cid ∧
    SMEvent.errorStateNotFound name ∈ (setState exitFn enterFn m name).2 ∧
    SMEvent.exitCalled cid ∈ (setState exitFn enterFn m name).2 ∧
    (setState exitFn enterFn m name).1.store cid = exitFn (m.store cid) ∧
    (∀ i, i ≠ cid → (setState exitFn enterFn m name).1.store i = m.store i) ∧
    (setState exitFn enterFn m name).1.states = m.states ∧
    (∀ i, SMEvent.enterCalled i ∉ (setState exitFn enterFn m name).2) := by
  have hss : setState exitFn enterFn m name =
      ({ m with store := fun i => if i = cid then exitFn (m.store i) else m.store i },
        [SMEvent.logExiting, SMEvent.exitCalled cid, SMEvent.errorStateNotFound name]) := by
    unfold setState
    rw [hcur]
    simp only [hname]
    rfl
  rw [hss]
  refine ⟨hcur, by simp, by simp, by simp, ?_, rfl, ?_⟩
  · intro i hi
    simp [hi]
  · intro i
    simp

theorem C1_witness :
    m0.states "Nonexistent" = none ∧ m0.currentState = some 0 ∧
    (setState hubExit id m0 "Nonexistent").1.currentState = some 0 ∧
    SMEvent.errorStateNotFound "Nonexistent" ∈ (setState hubExit id m0 "Nonexistent").2 ∧
    SMEvent.exitCalled 0 ∈ (setState hubExit id m0 "Nonexistent").2 ∧
    (setState hubExit id m0 "Nonexistent").1.store 0 = hubExit (m0.store 0) := by
  have h := C1_unknown_state_behavior hubExit id m0 "Nonexistent" 0 (by decide) rfl
  exact ⟨by decide, rfl, h.1, h.2.1, h.2.2.1, h.2.2.2.1⟩

end SM

namespace PIC

theorem computeMove_dir (keys : Keys) (rot0 : ℤ) :
    (computeMove keys rot0).1 =
      ⟨(if keys.d then 1 else 0) - (if keys.a then 1 else 0),
       (if keys.s then 1 else 0) - (if keys.w then 1 else 0)⟩ := by
  rcases keys with ⟨w, s, a, d⟩
  cases w <;> cases s <;> cases a <;> cases d <;> rfl

/-- Claim C7 counterexample: with 'w' and 'a' both held, the computed
movement direction is (-1, -1) — both axes non-zero, a diagonal — so
the direction is not restricted to the four cardinal directions. -/
theorem C7_counterexample :
    (computeMove ⟨true, false, true, false⟩ 0).1 = ⟨-1, -1⟩ ∧
    (computeMove ⟨true, false, true, false⟩ 0).1.x ≠ 0 ∧
    (computeMove ⟨true, false, true, false⟩ 0).1.z ≠ 0 := by
  refine ⟨rfl, ?_, ?_⟩ <;> decide

/-- Claim C7 (amended): each held cardinal key adjusts exactly one
axis, so each component of the movement direction lies in {-1, 0, 1}
and the direction is the zero vector or a cardinal unit vector
whenever at most one movement key is held (two keys on different axes
produce a diagonal); the facing rotation always stays in
{0, 90, 180, -90} (it starts at 0 and every key writes a member of
that set); and both direction and rotation are forwarded to the
physics component exactly when one is present. -/
theorem C7_input_mapping :
    (∀ (keys : Keys) (rot0 : ℤ),
      (computeMove keys rot0).1 =
        ⟨(if keys.d then 1 else 0) - (if keys.a then 1 else 0),
         (if keys.s then 1 else 0) - (if keys.w then 1 else 0)⟩) ∧
    (∀ (keys : Keys) (rot0 : ℤ),
      ((if keys.w then 1 else 0) + (if keys.s then 1 else 0) +
        (if keys.a then 1 else 0) + (if keys.d then 1 else 0) : ℕ) ≤ 1 →
      (computeMove keys rot0).1 ∈ cardinalSet) ∧
    (∀ (keys : Keys) (rot0 : ℤ), rot0 ∈ rotSet → (computeMove keys rot0).2 ∈ rotSet) ∧
    (∀ (keys : Keys) (rot0 : ℤ),
      (playerInputUpdate keys rot0 true).2 =
        [PhysCmd.setMovementDirection (computeMove keys rot0).1.x
          (computeMove keys rot0).1.z,
         PhysCmd.setMovementRotation (computeMove keys rot0).2]) ∧
    (∀ (keys : Keys) (rot0 : ℤ), (playerInputUpdate keys rot0 false).2 = []) := by
  refine ⟨computeMove_dir, ?_, ?_, fun keys rot0 => rfl, fun keys rot0 => rfl⟩
  · intro keys rot0 h
    rw [computeMove_dir]
    revert h
    rcases keys with ⟨w, s, a, d⟩
    cases w <;> cases s <;> cases a <;> cases d <;> intro h <;> first | decide | exact absurd h (by decide)
  · intro keys rot0 h
    rcases keys with ⟨w, s, a, d⟩
    cases w <;> cases s <;> cases a <;> cases d <;> simp_all [computeMove, rotSet]

theorem C7_witness :
    ((if (⟨false, true, false, false⟩ : Keys).w then 1 else 0) +
      (if (⟨false, true, false, false⟩ : Keys).s then 1 else 0) +
      (if (⟨false, true, false, false⟩ : Keys).a then 1 else 0) +
      (if (⟨false, true, false, false⟩ : Keys).d then 1 else 0) : ℕ) ≤ 1 ∧
    ((0 : ℤ) ∈ rotSet) ∧
    (computeMove ⟨false, true, false, false⟩ 0).1 ∈ cardinalSet ∧
    (computeMove ⟨false, true, false, false⟩ 0).2 ∈ rotSet := by
  have h1 := C7_input_mapping.2.1 ⟨false, true, false, false⟩ 0 (by decide)
  have h2 := C7_input_mapping.2.2.1 ⟨false, true, false, false⟩ 0 (by decide)
  exact ⟨by decide, by decide, h1, h2⟩

end PIC

namespace Portal

theorem run_no_emit (L : List (ℚ × Option ℚ)) :
    ∀ p : PortalState, 0 < p.cooldown → (∀ t ∈ L, 0 ≤ t.1) →
    (L.map Prod.fst).sum < p.cooldown →
    (∀ o ∈ (run p L).2, o = none) ∧
    (run p L).1.cooldown = p.cooldown - (L.map Prod.fst).sum := by
  induction L with
  | nil =>
      intro p hpos hdt hsum
      refine ⟨?_, by simp [run]⟩
      intro o ho
      simp [run] at ho
  | cons t ts ih =>
      intro p hpos hdt hsum
      have hdt0 : 0 ≤ t.1 := hdt t (List.mem_cons_self t ts)
      have hrest0 : 0 ≤ (ts.map Prod.fst).sum := by
        apply List.sum_nonneg
        intro x hx
        obtain ⟨t', ht', rfl⟩ := List.mem_map.mp hx
        exact hdt t' (List.mem_cons_of_mem t ht')
      have hsum' : t.1 + (ts.map Prod.fst).sum < p.cooldown := by
        simpa using hsum
      have hstep : update p t.1 t.2 = ({ p with cooldown := p.cooldown - t.1 }, none) := by
        unfold update
        rw [if_pos hpos]
      have hpos' : 0 < p.cooldown - t.1 := by linarith
      obtain ⟨ih1, ih2⟩ := ih { p with cooldown := p.cooldown - t.1 } hpos'
        (fun t' ht' => hdt t' (List.mem_cons_of_mem t ht')) (by simp; linarith)
      constructor
      · intro o ho
        simp only [run, hstep] at ho
        simp only [List.mem_cons] at ho
        rcases ho with rfl | ho
        · rfl
        · exact ih1 o ho
      · simp only [run, hstep]
        rw [ih2]
        simp only [List.map_cons, List.sum_cons]
        ring

/-- Claim C8: while the portal cooldown is positive, each tick only
decrements it by `deltaTime` and emits nothing; an emission resets the
cooldown to the fixed value 2 and carries the configured target state
name; and after an emission no further event is emitted over any
subsequent ticks whose total `deltaTime` stays below the 2-second
window — at most one change-state event per cooldown window. -/
theorem C8_one_emission_per_cooldown :
    (∀ (p : PortalState) (dt : ℚ) (dist : Option ℚ), 0 < p.cooldown →
      update p dt dist = ({ p with cooldown := p.cooldown - dt }, none)) ∧
    (∀ (p : PortalState) (dt : ℚ) (dist : Option ℚ) (e : String),
      (update p dt dist).2 = some e →
      (update p dt dist).1.cooldown = 2 ∧ e = p.targetStateName) ∧
    (∀ (p : PortalState) (dt : ℚ) (dist : Option ℚ) (e : String)
        (L : List (ℚ × Option ℚ)),
      (update p dt dist).2 = some e →
      (∀ t ∈ L, 0 ≤ t.1) → (L.map Prod.fst).sum < 2 →
      ∀ o ∈ (run (update p dt dist).1 L).2, o = none) := by
  have hreset : ∀ (p : PortalState) (dt : ℚ) (dist : Option ℚ) (e : String),
      (update p dt dist).2 = some e →
      (update p dt dist).1.cooldown = 2 ∧ e = p.targetStateName := by
    intro p dt dist e he
    by_cases hpos : 0 < p.cooldown
    · unfold update at he
      rw [if_pos hpos] at he
      simp at he
    · cases dist with
      | none =>
          unfold update at he
          rw [if_neg hpos] at he
          simp at he
      | some d =>
          unfold update at he ⊢
          rw [if_neg hpos] at he ⊢
          have he' : (if d < p.triggerRadius then
              ({ p with cooldown := 2 }, some p.targetStateName)
            else (p, none)).2 = some e := he
          by_cases hd : d < p.triggerRadius
          · rw [if_pos hd] at he'
            refine ⟨?_, (Option.some_inj.mp he').symm⟩
            show (if d < p.triggerRadius then
                ({ p with cooldown := 2 }, some p.targetStateName)
              else (p, none)).1.cooldown = 2
            rw [if_pos hd]
          · rw [if_neg hd] at he'
            simp at he'
  refine ⟨?_, hreset, ?_⟩
  · intro p dt dist hpos
    unfold update
    rw [if_pos hpos]
  · intro p dt dist e L he hdt hsum
    have h2 := (hreset p dt dist e he).1
    have := run_no_emit L (update p dt dist).1 (by rw [h2]; norm_num) hdt
      (by rw [h2]; exact hsum)
    exact this.1

theorem C8_witness :
    (update ⟨"HubWorld", 2, 0⟩ 1 (some 1)).2 = some "HubWorld" ∧
    (∀ t ∈ ([((1 : ℚ), some (1 : ℚ))] : List (ℚ × Option ℚ)), 0 ≤ t.1) ∧
    (((([((1 : ℚ), some (1 : ℚ))] : List (ℚ × Option ℚ)).map Prod.fst).sum) < 2) ∧
    (∀ o ∈ (run (update ⟨"HubWorld", 2, 0⟩ 1 (some 1)).1
      [((1 : ℚ), some (1 : ℚ))]).2, o = none) := by
  have hemit : (update (⟨"HubWorld", 2, 0⟩ : PortalState) 1 (some 1)).2 =
      some "HubWorld" := by
    unfold update
    norm_num
  have hdt : ∀ t ∈ ([((1 : ℚ), some (1 : ℚ))] : List (ℚ × Option ℚ)), 0 ≤ t.1 := by
    intro t ht
    simp at ht
    subst ht
    norm_num
  have hsum : ((([((1 : ℚ), some (1 : ℚ))] : List (ℚ × Option ℚ)).map Prod.fst).sum) <
      2 := by
    simp
  exact ⟨hemit, hdt, hsum,
    C8_one_emission_per_cooldown.2.2 ⟨"HubWorld", 2, 0⟩ 1 (some 1) "HubWorld"
      [((1 : ℚ), some (1 : ℚ))] hemit hdt hsum⟩

end Portal
end GameGraph

namespace GameGraph
namespace Ent

theorem mem_disposeMaterial (m mat : Material) :
    m ∈ disposeMaterial mat ↔ m = mat ∧ mat.isCachedMaterial = false := by
  unfold disposeMaterial
  by_cases hc : mat.isCachedMaterial
  · rw [if_pos hc]
    simp [hc]
  · rw [if_neg hc]
    simp
    intro h
    simpa using hc

theorem entityDestroy_materials_iff (scene : List SceneChild) (self : SceneChild)
    (m : Material) :
    m ∈ (entityDestroy (some scene) self).2.materials ↔
      (m.isCachedMaterial = false ∧ ∃ mesh ∈ meshesOf self.root, m ∈ mesh.materials) := by
  show m ∈ (meshesOf self.root).flatMap
    (fun mesh => mesh.materials.flatMap disposeMaterial) ↔ _
  rw [List.mem_flatMap]
  constructor
  · rintro ⟨mesh, hmesh, hm⟩
    rw [List.mem_flatMap] at hm
    obtain ⟨mat, hmat, hdm⟩ := hm
    obtain ⟨rfl, hflag⟩ := (mem_disposeMaterial m mat).mp hdm
    exact ⟨hflag, mesh, hmesh, hmat⟩
  · rintro ⟨hflag, mesh, hmesh, hmat⟩
    refine ⟨mesh, hmesh, ?_⟩
    rw [List.mem_flatMap]
    exact ⟨m, hmat, (mem_disposeMaterial m m).mpr ⟨rfl, hflag⟩⟩

theorem lookup_mem_material (l : List (String × Material)) (a : String) (b : Material)
    (h : l.lookup a = some b) : (a, b) ∈ l := by
  induction l with
  | nil => simp [List.lookup] at h
  | cons kv rest ih =>
      rcases kv with ⟨k, v⟩
      rw [List.lookup_cons] at h
      cases hk : (a == k)
      · rw [hk] at h
        have h' : rest.lookup a = some b := h
        exact List.mem_cons_of_mem (k, v) (ih h')
      · rw [hk] at h
        have h' : some v = some b := h
        have hk' : a = k := by simpa using hk
        have hb : v = b := Option.some_inj.mp h'
        rw [hk', ← hb]
        exact List.mem_cons_self (k, v) rest

/-- Claim C9: `Entity.destroy` disposes exactly the geometries and the
non-pool-cached materials of the meshes under the entity's own scene
group, never a material flagged `userData.isCachedMaterial`; it
removes only the entity's group from the scene, leaving every other
scene child in place; materials produced by the loader pool carry the
cached flag (so entity destruction never disposes them), and they are
released by the pool's own dispose. -/
theorem C9_destroy_ownership :
    (∀ (scene : List SceneChild) (self : SceneChild) (m : Material),
      m ∈ (entityDestroy (some scene) self).2.materials ↔
        (m.isCachedMaterial = false ∧ ∃ mesh ∈ meshesOf self.root, m ∈ mesh.materials)) ∧
    (∀ (scene : List SceneChild) (self : SceneChild) (g : ℕ),
      g ∈ (entityDestroy (some scene) self).2.geoms ↔
        ∃ mesh ∈ meshesOf self.root, mesh.geomId = g) ∧
    (∀ (scene : List SceneChild) (self : SceneChild),
      (entityDestroy (some scene) self).1 =
        some (scene.filter (fun c => c.objId ≠ self.objId))) ∧
    (∀ (scene : List SceneChild) (self : SceneChild) (c : SceneChild),
      c ∈ scene → c.objId ≠ self.objId →
      ∃ s', (entityDestroy (some scene) self).1 = some s' ∧ c ∈ s') ∧
    (∀ (scene : List SceneChild) (self : SceneChild) (m : Material),
      m.isCachedMaterial = true → m ∉ (entityDestroy (some scene) self).2.materials) ∧
    (∀ (pool : PoolState) (fp : String) (original : Material),
      (∀ kv ∈ pool.materialCache, kv.2.isCachedMaterial = true) →
      ((getOrCreateStandardMaterial pool fp original).2.1.isCachedMaterial = true ∧
        ∀ kv ∈ (getOrCreateStandardMaterial pool fp original).1.materialCache,
          kv.2.isCachedMaterial = true)) ∧
    (∀ (pool : PoolState) (fp : String) (m : Material),
      pool.materialCache.lookup fp = some m → m ∈ loaderDisposeMaterials pool) := by
  refine ⟨entityDestroy_materials_iff, ?_, ?_, ?_, ?_, ?_, ?_⟩
  · intro scene self g
    show g ∈ (meshesOf self.root).map (fun mesh => mesh.geomId) ↔ _
    rw [List.mem_map]
  · intro scene self
    rfl
  · intro scene self c hc hne
    refine ⟨scene.filter (fun x => x.objId ≠ self.objId), rfl, ?_⟩
    rw [List.mem_filter]
    exact ⟨hc, by simp [hne]⟩
  · intro scene self m hflag hmem
    obtain ⟨hfalse, _⟩ := (entityDestroy_materials_iff scene self m).mp hmem
    rw [hflag] at hfalse
    simp at hfalse
  · intro pool fp original hinv
    unfold getOrCreateStandardMaterial
    cases hl : pool.materialCache.lookup fp with
    | some m =>
        refine ⟨hinv (fp, m) (lookup_mem_material _ _ _ hl), ?_⟩
        intro kv hkv
        exact hinv kv hkv
    | none =>
        refine ⟨rfl, ?_⟩
        intro kv hkv
        simp only [List.mem_append, List.mem_singleton] at hkv
        rcases hkv with hkv | rfl
        · exact hinv kv hkv
        · rfl
  · intro pool fp m hl
    have hmem := lookup_mem_material _ _ _ hl
    exact List.mem_map.mpr ⟨(fp, m), hmem, rfl⟩

end Ent
end GameGraph

namespace GameGraph
namespace Ent

theorem C9_witness :
    otherChild ∈ sceneW ∧ otherChild.objId ≠ selfChild.objId ∧
    (∃ s', (entityDestroy (some sceneW) selfChild).1 = some s' ∧ otherChild ∈ s') ∧
    matCached.isCachedMaterial = true ∧
    matCached ∉ (entityDestroy (some sceneW) selfChild).2.materials ∧
    (∀ kv ∈ poolW.materialCache, kv.2.isCachedMaterial = true) ∧
    (getOrCreateStandardMaterial poolW "fp2" matPlain).2.1.isCachedMaterial = true ∧
    poolW.materialCache.lookup "fp1" = some matCached ∧
    matCached ∈ loaderDisposeMaterials poolW := by
  have hmem : otherChild ∈ sceneW :=
    List.mem_cons_of_mem _ (List.mem_cons_self _ _)
  have hne : otherChild.objId ≠ selfChild.objId := by decide
  have hinv : ∀ kv ∈ poolW.materialCache, kv.2.isCachedMaterial = true := by
    intro kv hkv
    simp [poolW] at hkv
    rw [hkv]
    rfl
  have hlk : poolW.materialCache.lookup "fp1" = some matCached := rfl
  exact ⟨hmem, hne,
    C9_destroy_ownership.2.2.2.1 sceneW selfChild otherChild hmem hne,
    rfl,
    C9_destroy_ownership.2.2.2.2.1 sceneW selfChild matCached rfl,
    hinv,
    (C9_destroy_ownership.2.2.2.2.2.1 poolW "fp2" matPlain hinv).1,
    hlk,
    C9_destroy_ownership.2.2.2.2.2.2 poolW "fp1" matCached hlk⟩

end Ent
end GameGraph
